import Mathlib

/-!
Shallow embedding of `xrankmirror.py`, a mirror-ranking script: it fetches a
JSON list of mirrors, filters by enabled/region/tier, benchmarks each mirror
with an HTTP GET that follows redirects up to a bound, and prints results
sorted by throughput.  Pure string manipulation is re-implemented over
`List Char` (structural recursion) so that every definition reduces in the
kernel; network I/O is modelled by an oracle `server : String → String →
FetchResult` giving the response of a GET for a `(host, path)` pair, and
elapsed wall time by a rational parameter.
-/

/-- Python `str.startswith(pre)` over character lists. -/
def startsWithChars : List Char → List Char → Bool
  | _, [] => true
  | [], _ :: _ => false
  | a :: as, b :: bs => a == b && startsWithChars as bs

/-- Python `s.startswith(pre)`. -/
def pyStartsWith (s pre : String) : Bool :=
  startsWithChars s.toList pre.toList

/-- Python slicing `s[n:]` (URLs here are ASCII, so character slicing matches). -/
def pyDrop (n : Nat) (s : String) : String :=
  String.mk (s.toList.drop n)

/-- Helper for Python `s.split(c)`: accumulates the current token (reversed). -/
def splitChar (c : Char) : List Char → List Char → List (List Char)
  | [], acc => [acc.reverse]
  | x :: xs, acc =>
    if x == c then acc.reverse :: splitChar c xs []
    else splitChar c xs (x :: acc)

/-- Python `s.split(c)` with a one-character separator; `"".split(c) = [""]`. -/
def pySplit (c : Char) (s : String) : List String :=
  (splitChar c s.toList []).map String.mk

/-- Python `c.join(parts)` for the one-character separator `"/"`. -/
def joinSlash : List String → String
  | [] => ""
  | [x] => x
  | x :: y :: rest => x ++ "/" ++ joinSlash (y :: rest)

/-- Python `s.rstrip` restricted to a character predicate. -/
def pyRStrip (p : Char → Bool) (s : String) : String :=
  String.mk ((s.toList.reverse.dropWhile p).reverse)

/-- Python `s.strip` restricted to a character predicate. -/
def pyStrip (p : Char → Bool) (s : String) : String :=
  String.mk (((s.toList.dropWhile p).reverse.dropWhile p).reverse)

/-- The character set of `args.regions.strip(" ,")`. -/
def stripSpaceComma (c : Char) : Bool := c == ' ' || c == ','

/-- The reference package downloaded from every mirror (`PKG`). -/
def PKG : String := "runit-2.2.0_2.x86_64.xbps"

/-- The redirect bound (`MAX_REDIRECTS`). -/
def MAX_REDIRECTS : Nat := 3

/-- A single quote character, used in the region error message. -/
def squote : String := String.singleton (Char.ofNat 39)

/-- A mirror record as decoded from the JSON mirror list.  The `speed` field
is absent (`none`) until set by the benchmarking stage. -/
structure Mirror where
  base_url : String
  region : String
  location : String
  tier : Nat
  enabled : Bool
  speed : Option ℚ
deriving DecidableEq

/-- Exact rational division, written on numerators and denominators so that it
evaluates in the kernel; `ratDiv_eq_div` below proves it is division on `ℚ`. -/
def ratDiv (a b : ℚ) : ℚ := Rat.divInt (a.num * b.den) (a.den * b.num)


/-- One decimal digit from a nonnegative rational `num/den`: the rounded
value of `10*num/den`, split as `intpart.digit`. -/
def fmtTenths (num : Int) (den : Nat) : String :=
  let n : Nat := (Int.fdiv (20 * num + den) (2 * (den : Int))).toNat
  toString (n / 10) ++ "." ++ toString (n % 10)

/-- Renders a rational with one decimal digit, as Python `f"{x:.1f}"` does on
the exact values arising in this development (rounding of the last digit uses
round-half-up; the claims only evaluate it away from ties, where every
rounding convention agrees). -/
def fmtFixed1 (x : ℚ) : String :=
  if x < 0 then "-" ++ fmtTenths (-x.num) x.den
  else fmtTenths x.num x.den

/-- Minimum field width 3 of Python `f"{x:3.1f}"` (right-aligned). -/
def padLeft3 (s : String) : String :=
  if s.length < 3 then String.mk (List.replicate (3 - s.length) ' ') ++ s else s

/-- The loop body of `format_speed`: one unit per iteration, dividing by 1000
until the magnitude is below 1000; falls through to the `T` suffix. -/
def format_speed_go (suffix : String) : List String → ℚ → String
  | [], speed => fmtFixed1 speed ++ "T" ++ suffix
  | u :: us, speed =>
    if (if speed < 0 then -speed else speed) < 1000 then
      padLeft3 (fmtFixed1 speed) ++ u ++ suffix
    else format_speed_go suffix us (ratDiv speed 1000)

/-- `format_speed(speed, suffix="B/s")` from the source. -/
def format_speed (speed : ℚ) : String :=
  format_speed_go ("B/s") [("" : String), "K", "M", "G"] speed

/-- Outcome of `create_connection(url)`.  `valueErr` models the `ValueError`
raised by tuple unpacking when the URL has no `/` after the scheme (a caught
`Exception`); `sysExit` models `sys.exit` on an invalid scheme, which raises
`SystemExit` — not a subclass of `Exception`, hence never caught by the
benchmark loop's `except Exception` handler. -/
inductive ConnResult where
  | ok (host path : String)
  | valueErr
  | sysExit (msg : String)
deriving DecidableEq

/-- Python `url_rest.split("/", maxsplit=1)` followed by tuple unpacking:
`none` when there is no `/` at all. -/
def splitOnce (s : String) : Option (String × String) :=
  match pySplit '/' s with
  | [] => none
  | [_] => none
  | h :: rest => some (h, joinSlash rest)

/-- `create_connection(url)` from the source: scheme check by string prefix,
then split host from path at the first `/`. -/
def create_connection (url : String) : ConnResult :=
  if pyStartsWith url ("https://") then
    match splitOnce (pyDrop 8 url) with
    | some (h, p) => ConnResult.ok h p
    | none => ConnResult.valueErr
  else if pyStartsWith url ("http://") then
    match splitOnce (pyDrop 7 url) with
    | some (h, p) => ConnResult.ok h p
    | none => ConnResult.valueErr
  else ConnResult.sysExit ("Error: Invalid url " ++ url)

/-- An HTTP response as the benchmark loop observes it: the status code, the
value of the `Location` header, and the length of the body. -/
structure HResp where
  status : Nat
  locationHeader : String
  bodyLen : Nat
deriving DecidableEq

/-- Result of one GET: a response, or an `Exception` raised while connecting
(connection failure, timeout). -/
inductive FetchResult where
  | ok (r : HResp)
  | connErr
deriving DecidableEq

/-- `response.status in (301, 302, 303, 307, 308)`. -/
def redirectStatus (s : Nat) : Bool :=
  s == 301 || s == 302 || s == 303 || s == 307 || s == 308

/-- Outcome of the redirect loop of `rank_mirror`.  `finished r closed h`
means the loop left with last response `r` (already closed — so its body
reads as empty — iff the redirect bound was exhausted) and `conn.host = h`;
`exn h` means a caught `Exception` was raised, with `h` the host of the last
bound connection if any (`none` means the handler itself would crash on the
unbound name `conn`); `sysExit` means `sys.exit` was called. -/
inductive LoopResult where
  | finished (r : HResp) (closed : Bool) (host : String)
  | exn (host : Option String)
  | sysExit (msg : String)
deriving DecidableEq

/-- The `for _ in range(MAX_REDIRECTS)` loop of `rank_mirror`, parametrised by
the network oracle `server` mapping `(host, path)` to the GET outcome.  The
fuel counts remaining loop iterations; the `0` case (loop body never entered)
is unreachable from `rank_mirror` since `MAX_REDIRECTS = 3`. -/
def redirectLoop (server : String → String → FetchResult) :
    Nat → String → Option String → LoopResult
  | 0, _, host => LoopResult.exn host
  | fuel + 1, url, host =>
    match create_connection url with
    | ConnResult.sysExit m => LoopResult.sysExit m
    | ConnResult.valueErr => LoopResult.exn host
    | ConnResult.ok h p =>
      match server h p with
      | FetchResult.connErr => LoopResult.exn (some h)
      | FetchResult.ok r =>
        if redirectStatus r.status then
          match fuel with
          | 0 => LoopResult.finished r true h
          | fuel2 + 1 => redirectLoop server (fuel2 + 1) r.locationHeader (some h)
        else LoopResult.finished r false h

/-- What `rank_mirror` returns: a speed, `None`, or an uncaught exception
(`systemExit` for `SystemExit` from `sys.exit`; `uncaught` for the
`NameError` the `except` handler itself raises when `conn` is unbound). -/
inductive RankResult where
  | speed (q : ℚ)
  | noSpeed
  | systemExit (msg : String)
  | uncaught
deriving DecidableEq

/-- Return value of `rank_mirror` together with the lines it writes to
standard output and to standard error. -/
structure RankOutput where
  result : RankResult
  stdoutLines : List String
  stderrLines : List String
deriving DecidableEq

/-- `rank_mirror(mirror, pkg_path)` from the source, with the network and the
elapsed wall time `ttime` (the `perf_counter` difference around the loop) as
parameters.  Note the two slips in the source, reproduced here faithfully:
on a non-200 final status the warning call is `sys.stderr.writelinse`, a
misspelling that raises `AttributeError`, caught by the `except Exception`
handler; and that handler logs `ERROR: ... failed utterly` with `print`,
i.e. to standard output, never to standard error.  `sys.exit`'s message is
the only thing written to standard error, by the interpreter on exit. -/
def rank_mirror (server : String → String → FetchResult) (ttime : ℚ)
    (mirror : Mirror) (pkg_path : String) : RankOutput :=
  let base_url := pyRStrip (fun c => c == '/') mirror.base_url ++ pkg_path
  match redirectLoop server MAX_REDIRECTS base_url none with
  | LoopResult.sysExit m => ⟨RankResult.systemExit m, [], [m]⟩
  | LoopResult.exn none => ⟨RankResult.uncaught, [], []⟩
  | LoopResult.exn (some h) =>
      ⟨RankResult.noSpeed, ["ERROR: " ++ h ++ ": failed utterly"], []⟩
  | LoopResult.finished r closed h =>
      let data_len : Nat := if closed then 0 else r.bodyLen
      if r.status ≠ 200 then
        ⟨RankResult.noSpeed, ["ERROR: " ++ h ++ ": failed utterly"], []⟩
      else
        ⟨RankResult.speed (ratDiv (data_len : ℚ) ttime), [], []⟩

/-- Outcome of the mirror loop in `benchmark_mirrors`: the updated mirror
list and the `results` accumulator, or the abort raised by an exception
escaping `rank_mirror` (`SystemExit`, or the handler's own `NameError`). -/
inductive BenchResult where
  | ok (upd res : List Mirror)
  | abortSystemExit (msg : String)
  | abortUncaught
deriving DecidableEq

/-- `pkg_path = "/current/" + PKG` from `benchmark_mirrors`. -/
def pkg_path : String := "/current/" ++ PKG

/-- The per-mirror loop of `benchmark_mirrors`: sets `mirror["speed"]` in
place on every mirror (possibly to `None`) and appends to `results` those
whose speed is not `None`.  Returns the updated mirror list together with
`results`, or the abort that escaped. -/
def benchLoop (server : String → String → FetchResult) (ttimeOf : Mirror → ℚ) :
    List Mirror → BenchResult
  | [] => BenchResult.ok [] []
  | m :: ms =>
    match (rank_mirror server (ttimeOf m) m pkg_path).result with
    | RankResult.systemExit msg => BenchResult.abortSystemExit msg
    | RankResult.uncaught => BenchResult.abortUncaught
    | RankResult.speed q =>
      match benchLoop server ttimeOf ms with
      | BenchResult.ok upd res =>
        BenchResult.ok ({ m with speed := some q } :: upd)
          ({ m with speed := some q } :: res)
      | other => other
    | RankResult.noSpeed =>
      match benchLoop server ttimeOf ms with
      | BenchResult.ok upd res => BenchResult.ok ({ m with speed := none } :: upd) res
      | other => other

/-- The sort key `itemgetter("speed")`; only ever applied to mirrors whose
`speed` is set (the source appends to `results` only when it is not `None`). -/
def speedKey (m : Mirror) : ℚ := m.speed.getD 0

/-- The comparison of `results.sort(key=itemgetter("speed"), reverse=True)`:
descending by speed. -/
def speedGE (a b : Mirror) : Prop := speedKey b ≤ speedKey a

instance : DecidableRel speedGE :=
  fun a b => inferInstanceAs (Decidable (speedKey b ≤ speedKey a))

instance : IsTotal Mirror speedGE :=
  ⟨fun a b => le_total (speedKey b) (speedKey a)⟩

instance : IsTrans Mirror speedGE :=
  ⟨fun _ _ _ hab hbc => le_trans hbc hab⟩

/-- `results.sort(key=itemgetter("speed"), reverse=True)` (a stable sort,
though the spec does not rely on stability). -/
def sortResults (l : List Mirror) : List Mirror :=
  List.insertionSort speedGE l

/-- `benchmark_mirrors(mirrors)` from the source, through the ranked,
descending-sorted results table (the printing of which is a direct map over
this list). -/
def benchmark_mirrors (server : String → String → FetchResult)
    (ttimeOf : Mirror → ℚ) (mirrors : List Mirror) : BenchResult :=
  match benchLoop server ttimeOf mirrors with
  | BenchResult.ok upd res => BenchResult.ok upd (sortResults res)
  | other => other

/-- Lexicographic comparison of character lists by code point: the ordering
Python uses to sort a list of region strings. -/
def lexLe : List Char → List Char → Bool
  | [], _ => true
  | _ :: _, [] => false
  | a :: as, b :: bs =>
    if a < b then true else if b < a then false else lexLe as bs

/-- Python `<=` on strings (lexicographic by code point). -/
def strLe (a b : String) : Prop := lexLe a.toList b.toList = true

instance : DecidableRel strLe :=
  fun a b => inferInstanceAs (Decidable (lexLe a.toList b.toList = true))

instance : IsTotal String strLe := by
  constructor
  intro a b
  show lexLe a.toList b.toList = true ∨ lexLe b.toList a.toList = true
  generalize a.toList = as
  generalize b.toList = bs
  induction as generalizing bs with
  | nil => exact Or.inl rfl
  | cons x xs ih =>
    cases bs with
    | nil => exact Or.inr rfl
    | cons y ys =>
      by_cases hxy : x < y
      · left; simp [lexLe, hxy]
      · by_cases hyx : y < x
        · right; simp [lexLe, hyx]
        · rcases ih ys with h | h
          · left; simp [lexLe, hxy, hyx, h]
          · right; simp [lexLe, hxy, hyx, h]

instance : IsTrans String strLe := by
  constructor
  intro a b c
  show lexLe a.toList b.toList = true → lexLe b.toList c.toList = true →
    lexLe a.toList c.toList = true
  generalize a.toList = as
  generalize b.toList = bs
  generalize c.toList = cs
  induction as generalizing bs cs with
  | nil => intro _ _; rfl
  | cons x xs ih =>
    intro h1 h2
    cases bs with
    | nil => exact absurd h1 (by simp [lexLe])
    | cons y ys =>
      cases cs with
      | nil => exact absurd h2 (by simp [lexLe])
      | cons z zs =>
        simp only [lexLe] at h1 h2 ⊢
        by_cases hxy : x < y
        · by_cases hyz : y < z
          · simp [lt_trans hxy hyz]
          · by_cases hzy : z < y
            · rw [if_neg hyz, if_pos hzy] at h2
              exact absurd h2 (by simp)
            · have heq : y = z := le_antisymm (not_lt.mp hzy) (not_lt.mp hyz)
              have hxz : x < z := heq ▸ hxy
              simp [hxz]
        · by_cases hyx : y < x
          · rw [if_neg hxy, if_pos hyx] at h1
            exact absurd h1 (by simp)
          · have hxyeq : x = y := le_antisymm (not_lt.mp hyx) (not_lt.mp hxy)
            rw [if_neg hxy, if_neg hyx] at h1
            by_cases hyz : y < z
            · have hxz : x < z := hxyeq.symm ▸ hyz
              simp [hxz]
            · by_cases hzy : z < y
              · rw [if_neg hyz, if_pos hzy] at h2
                exact absurd h2 (by simp)
              · have hyzeq : y = z := le_antisymm (not_lt.mp hzy) (not_lt.mp hyz)
                rw [if_neg hyz, if_neg hzy] at h2
                have hxz : ¬x < z := hyzeq ▸ hxy
                have hzx : ¬z < x := hyzeq ▸ hyx
                rw [if_neg hxz, if_neg hzx]
                exact ih ys zs h1 h2

/-- `list_regions(mirrors, display=False)` from the source:
`list(set(regions))` then `.sort()` — the sorted, deduplicated region
values. -/
def list_regions (mirrors : List Mirror) : List String :=
  List.insertionSort strLe ((mirrors.map Mirror.region).dedup)

/-- The lines printed by `list_regions(mirrors)` in display mode. -/
def list_regions_display (mirrors : List Mirror) : List String :=
  let regions := list_regions mirrors
  if regions.isEmpty then ["No regions available."]
  else "Available Regions:" :: regions.map (fun r => " - " ++ r)

/-- Result of the filtering part of `main`: either the filtered mirror list,
or the message of a fatal `sys.exit`. -/
inductive FilterResult where
  | ok (mirrors : List Mirror)
  | fatal (msg : String)
deriving DecidableEq

/-- The message of `sys.exit("Error: Region '%s' not supported" % region)`. -/
def regionErrorMsg (r : String) : String :=
  "Error: Region " ++ squote ++ r ++ squote ++ " not supported"

/-- The region-filter block of `main`: strip the `--regions` argument of
spaces and commas; if nonempty, split on commas, reject (fatally, naming it)
the first token not among the available regions, else keep the mirrors whose
region is among the tokens. -/
def regionFilter (mirrors : List Mirror) (regionsArg : String) : FilterResult :=
  let stripped := pyStrip stripSpaceComma regionsArg
  if stripped = "" then FilterResult.ok mirrors
  else
    let regions := pySplit ',' stripped
    let available := list_regions mirrors
    match regions.find? (fun r => !(available.contains r)) with
    | some r => FilterResult.fatal (regionErrorMsg r)
    | none => FilterResult.ok (mirrors.filter (fun m => regions.contains m.region))

/-- The tier-filter block of `main`.  `args.tier` is `None` or (by argparse
`choices`) 1 or 2; `if args.tier:` is Python truthiness, modelled by the
`t ≠ 0` test. -/
def tierFilter (mirrors : List Mirror) : Option Nat → List Mirror
  | none => mirrors
  | some t => if t ≠ 0 then mirrors.filter (fun m => m.tier == t) else mirrors

/-- The whole filter pipeline of `main`: keep enabled mirrors, then the
region filter (which may exit fatally), then the tier filter. -/
def applyFilters (mirrors : List Mirror) (regionsArg : String)
    (tierArg : Option Nat) : FilterResult :=
  let enabled := mirrors.filter (fun m => m.enabled)
  match regionFilter enabled regionsArg with
  | FilterResult.fatal m => FilterResult.fatal m
  | FilterResult.ok ms => FilterResult.ok (tierFilter ms tierArg)

/-- Equality of all mirror fields except `speed`: what must be preserved
from JSON decode to process end. -/
def frameEq (a b : Mirror) : Prop :=
  a.base_url = b.base_url ∧ a.region = b.region ∧ a.location = b.location ∧
  a.tier = b.tier ∧ a.enabled = b.enabled

/-- Sample enabled mirrors used by the concrete witnesses below. -/
def wMirror : Mirror := ⟨"https://a/", "EU", "Frankfurt, Germany", 1, true, none⟩

/-- A network in which the benchmark GET for `wMirror` answers
301 → 301 → 200: two redirects, then a 200 with a 50-byte body. -/
def wChainServer : String → String → FetchResult := fun h p =>
  if h == "a" && p == ("current/" ++ PKG) then
    FetchResult.ok ⟨301, "https://b/x", 7⟩
  else if h == "b" && p == "x" then FetchResult.ok ⟨301, "https://c/y", 8⟩
  else if h == "c" && p == "y" then FetchResult.ok ⟨200, "", 50⟩
  else FetchResult.connErr

/-- A network in which the benchmark GET for `wMirror` answers an endless
redirect chain (four or more chained redirects: the fourth is never
requested, the loop bound being 3). -/
def wLoopServer : String → String → FetchResult := fun h p =>
  if h == "a" && p == ("current/" ++ PKG) then
    FetchResult.ok ⟨301, "https://b/x", 3⟩
  else if h == "b" && p == "x" then FetchResult.ok ⟨301, "https://c/y", 4⟩
  else if h == "c" && p == "y" then FetchResult.ok ⟨301, "https://d/z", 5⟩
  else FetchResult.connErr

/-- A mirror whose URL has an invalid scheme: `create_connection` calls
`sys.exit` on it. -/
def wFtpMirror : Mirror := ⟨"ftp://x/", "EU", "Somewhere", 1, true, none⟩

/-- A network on which every connection attempt raises a caught error. -/
def wConnFailServer : String → String → FetchResult := fun _ _ =>
  FetchResult.connErr

/-- The mirror of the C3 scenario: its benchmark GET yields a 404. -/
def w404Mirror : Mirror := ⟨"https://m/", "EU", "Elsewhere", 1, true, none⟩

/-- A network answering 404 to the benchmark GET of `w404Mirror`. -/
def w404Server : String → String → FetchResult := fun h p =>
  if h == "m" && p == ("current/" ++ PKG) then FetchResult.ok ⟨404, "", 9⟩
  else FetchResult.connErr

/-- Three mirrors whose benchmark bodies give speeds 5, 20 and 1 bytes/second
(with unit elapsed time). -/
def wmA : Mirror := ⟨"https://a/", "EU", "X", 1, true, none⟩

def wmB : Mirror := ⟨"https://b/", "AS", "Y", 1, true, none⟩

def wmC : Mirror := ⟨"https://c/", "NA", "Z", 2, true, none⟩

/-- A network giving the benchmark GET 200 with bodies of 5, 20 and 1 bytes
for hosts `a`, `b` and `c`. -/
def wSpeedServer : String → String → FetchResult := fun h p =>
  if p == ("current/" ++ PKG) then
    if h == "a" then FetchResult.ok ⟨200, "", 5⟩
    else if h == "b" then FetchResult.ok ⟨200, "", 20⟩
    else if h == "c" then FetchResult.ok ⟨200, "", 1⟩
    else FetchResult.connErr
  else FetchResult.connErr

/-- The updated mirror list of the concrete benchmark run. -/
def wUpd : List Mirror :=
  [{ wmA with speed := some 5 }, { wmB with speed := some 20 },
   { wmC with speed := some 1 }]

/-- The ranked results of the concrete benchmark run: 20, 5, 1 — descending. -/
def wRes : List Mirror :=
  [{ wmB with speed := some 20 }, { wmA with speed := some 5 },
   { wmC with speed := some 1 }]

/-- A disabled mirror: dropped by the enabled filter before any other stage. -/
def wDisabled : Mirror := ⟨"https://e/", "EU", "E", 2, false, none⟩

/-- A two-mirror list with regions EU and AS, for the filter witnesses. -/
def sampleMirrors : List Mirror := [wmA, wmB]

theorem ratDiv_eq_div (a b : ℚ) : ratDiv a b = a / b := (Rat.div_def' a b).symm


theorem redirectLoop_again (server : String → String → FetchResult) (fuel : Nat)
    (url : String) (host : Option String) (h p : String) (r : HResp)
    (hc : create_connection url = ConnResult.ok h p)
    (hs : server h p = FetchResult.ok r)
    (hr : redirectStatus r.status = true) :
    redirectLoop server (fuel + 1 + 1) url host =
      redirectLoop server (fuel + 1) r.locationHeader (some h) := by
  rw [redirectLoop]
  simp only [hc, hs, hr, if_true]

theorem redirectLoop_last (server : String → String → FetchResult)
    (url : String) (host : Option String) (h p : String) (r : HResp)
    (hc : create_connection url = ConnResult.ok h p)
    (hs : server h p = FetchResult.ok r) :
    redirectLoop server (0 + 1) url host =
      (if redirectStatus r.status then LoopResult.finished r true h
       else LoopResult.finished r false h) := by
  rw [redirectLoop]
  simp only [hc, hs]

/-- C1: when the benchmark GET of a mirror answers a chain 301, 301, 200 (two
redirects), `rank_mirror` succeeds and records the throughput computed from
the final 200 response's body only; when the first three responses are all
redirect statuses (as with any chain of four or more redirects, whose fourth
hop is never requested), the loop exits at the bound of 3 and the attempt
succeeds only if the last status received is 200 — here it is a redirect, so
the attempt is a failure. -/
theorem rank_mirror_redirect_chain (server : String → String → FetchResult)
    (ttime : ℚ) (m : Mirror) (pkg : String)
    (h0 p0 h1 p1 h2 p2 : String) (r0 r1 r2 : HResp)
    (hc0 : create_connection (pyRStrip (fun c => c == '/') m.base_url ++ pkg)
            = ConnResult.ok h0 p0)
    (hs0 : server h0 p0 = FetchResult.ok r0)
    (hr0 : redirectStatus r0.status = true)
    (hc1 : create_connection r0.locationHeader = ConnResult.ok h1 p1)
    (hs1 : server h1 p1 = FetchResult.ok r1)
    (hr1 : redirectStatus r1.status = true)
    (hc2 : create_connection r1.locationHeader = ConnResult.ok h2 p2)
    (hs2 : server h2 p2 = FetchResult.ok r2) :
    (r2.status = 200 →
      (rank_mirror server ttime m pkg).result
        = RankResult.speed ((r2.bodyLen : ℚ) / ttime)) ∧
    (redirectStatus r2.status = true →
      (rank_mirror server ttime m pkg).result = RankResult.noSpeed) := by
  have hloop : redirectLoop server MAX_REDIRECTS
      (pyRStrip (fun c => c == '/') m.base_url ++ pkg) none =
      (if redirectStatus r2.status then LoopResult.finished r2 true h2
       else LoopResult.finished r2 false h2) := by
    show redirectLoop server (0 + 1 + 1 + 1) _ none = _
    rw [redirectLoop_again server (0 + 1) _ none h0 p0 r0 hc0 hs0 hr0,
        redirectLoop_again server 0 _ (some h0) h1 p1 r1 hc1 hs1 hr1,
        redirectLoop_last server _ (some h1) h2 p2 r2 hc2 hs2]
  constructor
  · intro h200
    have hnr : redirectStatus r2.status = false := by
      rw [h200]; rfl
    rw [rank_mirror, hloop, hnr]
    simp [h200, ratDiv_eq_div]
  · intro hr2
    rw [rank_mirror, hloop, hr2]
    have hne : r2.status ≠ 200 := by
      intro he
      rw [he] at hr2
      exact absurd hr2 (by decide)
    simp [hne]

theorem rank_mirror_redirect_chain_witness :
    (rank_mirror wChainServer 1 wMirror pkg_path).result
        = RankResult.speed (((50 : Nat) : ℚ) / 1) ∧
    (rank_mirror wLoopServer 1 wMirror pkg_path).result = RankResult.noSpeed := by
  constructor
  · exact (rank_mirror_redirect_chain wChainServer 1 wMirror pkg_path
      ("a") ("current/" ++ PKG) ("b") ("x") ("c") ("y")
      ⟨301, "https://b/x", 7⟩ ⟨301, "https://c/y", 8⟩ ⟨200, "", 50⟩
      rfl rfl rfl rfl rfl rfl rfl rfl).1 rfl
  · exact (rank_mirror_redirect_chain wLoopServer 1 wMirror pkg_path
      ("a") ("current/" ++ PKG) ("b") ("x") ("c") ("y")
      ⟨301, "https://b/x", 3⟩ ⟨301, "https://c/y", 4⟩ ⟨301, "https://d/z", 5⟩
      rfl rfl rfl rfl rfl rfl rfl rfl).2 rfl

/-- C5: `format_speed` scales its input at 1000x steps with the suffixes
B/s, KB/s, MB/s, GB/s, TB/s and one decimal place; in particular 999 gives
"999.0B/s", 1000 gives "1.0KB/s" and 1000000 gives "1.0MB/s". -/
theorem format_speed_scaling :
    format_speed 999 = "999.0B/s" ∧ format_speed 1000 = "1.0KB/s" ∧
    format_speed 1000000 = "1.0MB/s" ∧ format_speed 1000000000 = "1.0GB/s" ∧
    format_speed 1000000000000 = "1.0TB/s" := by
  refine ⟨?_, ?_, ?_, ?_, ?_⟩ <;> decide



/-- C2 counterexample: the claim that every exception during benchmarking is
caught, logged to standard error, and never aborts the run is false at these
inputs.  A mirror with URL `ftp://x/` makes `create_connection` call
`sys.exit`; the resulting `SystemExit` is not an `Exception`, so the handler
does not catch it and the whole run aborts before the next mirror is tried.
And for a caught connection error the log line goes to standard output, with
standard error left empty. -/
theorem rank_mirror_exception_counterexample :
    (rank_mirror wChainServer 1 wFtpMirror pkg_path).result
        = RankResult.systemExit ("Error: Invalid url ftp://x/current/" ++ PKG) ∧
    benchmark_mirrors wChainServer (fun _ => 1) [wFtpMirror, wMirror]
        = BenchResult.abortSystemExit ("Error: Invalid url ftp://x/current/" ++ PKG) ∧
    rank_mirror wConnFailServer 1 wMirror pkg_path
        = ⟨RankResult.noSpeed, ["ERROR: a: failed utterly"], []⟩ := by
  refine ⟨by decide, by decide, by decide⟩

/-- C2 (amended): an `Exception` raised while benchmarking a mirror — here a
connection failure or timeout on a URL whose scheme and host parse — is
caught and treated as a per-mirror failure: the mirror gets no speed, the
error line is printed (to standard output, not standard error), and the
benchmark loop continues with the remaining mirrors.  (Invalid-scheme URLs
instead raise `SystemExit`, which escapes and aborts the run, as the
counterexample shows.) -/
theorem rank_mirror_caught_exception (server : String → String → FetchResult)
    (ttimeOf : Mirror → ℚ) (m : Mirror) (ms : List Mirror) (h p : String)
    (hc : create_connection (pyRStrip (fun c => c == '/') m.base_url ++ pkg_path)
            = ConnResult.ok h p)
    (hs : server h p = FetchResult.connErr) :
    rank_mirror server (ttimeOf m) m pkg_path
        = ⟨RankResult.noSpeed, ["ERROR: " ++ h ++ ": failed utterly"], []⟩ ∧
    benchLoop server ttimeOf (m :: ms) =
      (match benchLoop server ttimeOf ms with
       | BenchResult.ok upd res =>
           BenchResult.ok ({ m with speed := none } :: upd) res
       | other => other) := by
  have hrank : rank_mirror server (ttimeOf m) m pkg_path
      = ⟨RankResult.noSpeed, ["ERROR: " ++ h ++ ": failed utterly"], []⟩ := by
    have hl : redirectLoop server MAX_REDIRECTS
        (pyRStrip (fun c => c == '/') m.base_url ++ pkg_path) none
        = LoopResult.exn (some h) := by
      show redirectLoop server (0 + 1 + 1 + 1) _ none = _
      rw [redirectLoop]
      simp only [hc, hs]
    rw [rank_mirror, hl]
  refine ⟨hrank, ?_⟩
  rw [benchLoop, hrank]

theorem rank_mirror_caught_exception_witness :
    rank_mirror wConnFailServer (1 : ℚ) wMirror pkg_path
        = ⟨RankResult.noSpeed, ["ERROR: a: failed utterly"], []⟩ ∧
    benchLoop wConnFailServer (fun _ => (1 : ℚ)) [wMirror, wFtpMirror] =
      (match benchLoop wConnFailServer (fun _ => (1 : ℚ)) [wFtpMirror] with
       | BenchResult.ok upd res =>
           BenchResult.ok ({ wMirror with speed := none } :: upd) res
       | other => other) :=
  rank_mirror_caught_exception wConnFailServer (fun _ => (1 : ℚ)) wMirror
    [wFtpMirror] ("a") ("current/" ++ PKG) rfl rfl



/-- C3: a mirror whose benchmark ends with a final status other than 200 is
recorded as a failure — no speed value, excluded from the results — but no
warning reaches standard error: the source misspells the call as
`sys.stderr.writelinse`, which raises `AttributeError`; the `except` handler
catches it and prints the generic `failed utterly` line to standard output,
leaving standard error empty. -/
theorem rank_mirror_non200 :
    rank_mirror w404Server 1 w404Mirror pkg_path
        = ⟨RankResult.noSpeed, ["ERROR: m: failed utterly"], []⟩ ∧
    benchmark_mirrors w404Server (fun _ => 1) [w404Mirror]
        = BenchResult.ok [{ w404Mirror with speed := none }] [] := by
  refine ⟨by decide, by decide⟩
theorem benchLoop_res_eq (server : String → String → FetchResult)
    (ttimeOf : Mirror → ℚ) :
    ∀ (mirrors upd res : List Mirror),
      benchLoop server ttimeOf mirrors = BenchResult.ok upd res →
      res = upd.filter (fun m => m.speed.isSome) := by
  intro mirrors
  induction mirrors with
  | nil =>
    intro upd res h
    rw [benchLoop] at h
    cases h
    rfl
  | cons m ms ih =>
    intro upd res h
    rw [benchLoop] at h
    rcases hrank : (rank_mirror server (ttimeOf m) m pkg_path).result with q | _ | msg | _ <;>
      rw [hrank] at h <;> simp only [] at h
    · rcases hb : benchLoop server ttimeOf ms with ⟨upd0, res0⟩ | msg0 | _
      · rw [hb] at h
        simp only [] at h
        cases h
        simp [List.filter_cons]
        exact ih _ _ hb
      · rw [hb] at h; simp only [] at h; cases h
      · rw [hb] at h; simp only [] at h; cases h
    · rcases hb : benchLoop server ttimeOf ms with ⟨upd0, res0⟩ | msg0 | _
      · rw [hb] at h
        simp only [] at h
        cases h
        simp [List.filter_cons]
        exact ih _ _ hb
      · rw [hb] at h; simp only [] at h; cases h
      · rw [hb] at h; simp only [] at h; cases h
    · cases h
    · cases h

theorem benchmark_results_sorted (server : String → String → FetchResult)
    (ttimeOf : Mirror → ℚ) (mirrors upd res : List Mirror)
    (h : benchmark_mirrors server ttimeOf mirrors = BenchResult.ok upd res) :
    res.Perm (upd.filter (fun m => m.speed.isSome)) ∧
    (∀ m ∈ upd, m.speed = none → m ∉ res) ∧
    List.Sorted speedGE res := by
  rw [benchmark_mirrors] at h
  rcases hb : benchLoop server ttimeOf mirrors with ⟨upd0, res0⟩ | msg0 | _ <;>
    rw [hb] at h <;> simp only [] at h
  · cases h
    have hres : res0 = upd.filter (fun m => m.speed.isSome) :=
      benchLoop_res_eq server ttimeOf mirrors upd res0 hb
    have hperm : (sortResults res0).Perm res0 := List.perm_insertionSort speedGE res0
    refine ⟨hperm.trans (by rw [hres]), ?_, List.sorted_insertionSort speedGE res0⟩
    intro x hx hnone hmem
    have hmem2 := hperm.mem_iff.mp hmem
    rw [hres, List.mem_filter, hnone] at hmem2
    exact absurd hmem2.2 (by simp)
  · cases h
  · cases h







theorem benchmark_results_sorted_witness :
    benchmark_mirrors wSpeedServer (fun _ => 1) [wmA, wmB, wmC]
        = BenchResult.ok wUpd wRes ∧
    wRes.map speedKey = [20, 5, 1] ∧
    List.Sorted speedGE wRes ∧
    wRes.Perm (wUpd.filter (fun m => m.speed.isSome)) := by
  have h := benchmark_results_sorted wSpeedServer (fun _ => 1) [wmA, wmB, wmC]
    wUpd wRes (by decide)
  exact ⟨by decide, by decide, h.2.2, h.1⟩
theorem regionFilter_subset (mirrors out : List Mirror) (arg : String)
    (h : regionFilter mirrors arg = FilterResult.ok out) : out ⊆ mirrors := by
  simp only [regionFilter] at h
  split_ifs at h with hstr
  · cases h
    exact fun _ hm => hm
  · rcases hfind : (pySplit ',' (pyStrip stripSpaceComma arg)).find?
        (fun r => !((list_regions mirrors).contains r)) with _ | r <;>
      rw [hfind] at h <;> simp only [] at h
    · cases h
      exact fun x hx => List.mem_of_mem_filter hx
    · cases h

theorem tierFilter_subset (l : List Mirror) (t : Option Nat) : tierFilter l t ⊆ l := by
  cases t with
  | none => exact fun _ h => h
  | some t =>
    rw [tierFilter]
    split_ifs
    · exact fun x hx => List.mem_of_mem_filter hx
    · exact fun _ h => h

/-- C9: no field of a mirror record is ever mutated except that the
benchmarking stage sets the `speed` field in place: the updated list that
`benchmark_mirrors` produces agrees with the input mirror for `base_url`,
`region`, `location`, `tier` and `enabled` at every position, and every
stage of the filter pipeline returns records that are members of its input
list, unchanged. -/
theorem mirror_fields_immutable :
    (∀ (server : String → String → FetchResult) (ttimeOf : Mirror → ℚ)
        (mirrors upd res : List Mirror),
        benchLoop server ttimeOf mirrors = BenchResult.ok upd res →
        List.Forall₂ frameEq mirrors upd) ∧
    (∀ (mirrors : List Mirror) (arg : String) (tierArg : Option Nat)
        (ms : List Mirror),
        applyFilters mirrors arg tierArg = FilterResult.ok ms →
        ∀ m ∈ ms, m ∈ mirrors) := by
  constructor
  · intro server ttimeOf mirrors
    induction mirrors with
    | nil =>
      intro upd res h
      rw [benchLoop] at h
      cases h
      exact List.Forall₂.nil
    | cons m ms ih =>
      intro upd res h
      rw [benchLoop] at h
      rcases hrank : (rank_mirror server (ttimeOf m) m pkg_path).result with q | _ | msg | _ <;>
        rw [hrank] at h <;> simp only [] at h
      · rcases hb : benchLoop server ttimeOf ms with ⟨upd0, res0⟩ | msg0 | _ <;>
          rw [hb] at h <;> simp only [] at h
        · cases h
          exact List.Forall₂.cons ⟨rfl, rfl, rfl, rfl, rfl⟩ (ih _ _ hb)
        · cases h
        · cases h
      · rcases hb : benchLoop server ttimeOf ms with ⟨upd0, res0⟩ | msg0 | _ <;>
          rw [hb] at h <;> simp only [] at h
        · cases h
          exact List.Forall₂.cons ⟨rfl, rfl, rfl, rfl, rfl⟩ (ih _ _ hb)
        · cases h
        · cases h
      · cases h
      · cases h
  · intro mirrors arg tierArg ms h m hm
    rw [applyFilters] at h
    rcases hrf : regionFilter (mirrors.filter (fun m => m.enabled)) arg with ms0 | msg <;>
      rw [hrf] at h <;> simp only [] at h
    · cases h
      have h1 : m ∈ ms0 := tierFilter_subset ms0 tierArg hm
      have h2 : m ∈ mirrors.filter (fun m => m.enabled) :=
        regionFilter_subset _ _ _ hrf h1
      exact List.mem_of_mem_filter h2
    · cases h


theorem mirror_fields_immutable_witness :
    List.Forall₂ frameEq [wmA, wmB]
      [{ wmA with speed := some 5 }, { wmB with speed := some 20 }] ∧
    (∀ m ∈ [wMirror], m ∈ [wMirror, wDisabled]) :=
  ⟨mirror_fields_immutable.1 wSpeedServer (fun _ => 1) [wmA, wmB]
      [{ wmA with speed := some 5 }, { wmB with speed := some 20 }]
      [{ wmA with speed := some 5 }, { wmB with speed := some 20 }] (by decide),
   mirror_fields_immutable.2 [wMirror, wDisabled] ("") none [wMirror] (by decide)⟩

theorem contains_false_of_not_mem {l : List String} {a : String}
    (h : a ∉ l) : l.contains a = false := by
  cases hc : l.contains a with
  | false => rfl
  | true => exact absurd (List.elem_iff.mp hc) h

theorem contains_true_of_mem {l : List String} {a : String}
    (h : a ∈ l) : l.contains a = true :=
  List.elem_iff.mpr h

/-- C6: if the stripped `--regions` argument is nonempty and any of its
comma-separated tokens is not among the distinct regions of the enabled
mirror set, the region filter terminates the process with a fatal error
naming an invalid region; it never returns a silently filtered (possibly
empty) mirror list. -/
theorem regionFilter_invalid_fatal (mirrors : List Mirror) (arg : String)
    (hne : pyStrip stripSpaceComma arg ≠ "")
    (hbad : ∃ r ∈ pySplit ',' (pyStrip stripSpaceComma arg),
        r ∉ list_regions mirrors) :
    ∃ r ∈ pySplit ',' (pyStrip stripSpaceComma arg),
      r ∉ list_regions mirrors ∧
      regionFilter mirrors arg = FilterResult.fatal (regionErrorMsg r) := by
  rcases hfind : (pySplit ',' (pyStrip stripSpaceComma arg)).find?
      (fun r => !((list_regions mirrors).contains r)) with _ | r
  · exfalso
    rw [List.find?_eq_none] at hfind
    rcases hbad with ⟨r, hrmem, hrnot⟩
    exact hfind r hrmem (by rw [contains_false_of_not_mem hrnot]; rfl)
  · have hpr := List.find?_some hfind
    have hnotmem : r ∉ list_regions mirrors := by
      intro hmem
      rw [contains_true_of_mem hmem] at hpr
      cases hpr
    refine ⟨r, List.mem_of_find?_eq_some hfind, hnotmem, ?_⟩
    simp only [regionFilter]
    rw [if_neg hne, hfind]

/-- C7: with a region filter whose requested regions are all valid and a
tier filter together, the resulting mirror list is exactly the enabled
mirrors satisfying both predicates — the intersection of the exact
tier-match filter and the region-membership filter. -/
theorem applyFilters_intersection (mirrors : List Mirror) (arg : String) (t : Nat)
    (hne : pyStrip stripSpaceComma arg ≠ "")
    (hall : ∀ r ∈ pySplit ',' (pyStrip stripSpaceComma arg),
        r ∈ list_regions (mirrors.filter (fun m => m.enabled)))
    (ht : t ≠ 0) :
    applyFilters mirrors arg (some t) =
      FilterResult.ok ((mirrors.filter (fun m => m.enabled)).filter
        (fun m => m.tier == t
          && (pySplit ',' (pyStrip stripSpaceComma arg)).contains m.region)) := by
  have hfind : (pySplit ',' (pyStrip stripSpaceComma arg)).find?
      (fun r => !((list_regions (mirrors.filter (fun m => m.enabled))).contains r))
      = none := by
    rw [List.find?_eq_none]
    intro r hr
    rw [contains_true_of_mem (hall r hr)]
    simp
  simp only [applyFilters, regionFilter]
  rw [if_neg hne, hfind]
  simp only [tierFilter]
  rw [if_pos ht, List.filter_filter]

theorem find?_eq_of_mem_of_unique {α : Type} (p : α → Bool) (a : α) :
    ∀ (l : List α), a ∈ l → p a = true → (∀ x ∈ l, p x = true → x = a) →
      l.find? p = some a := by
  intro l
  induction l with
  | nil => intro h; cases h
  | cons x xs ih =>
    intro hmem hpa huniq
    cases hx : p x with
    | true =>
      have hxa : x = a := huniq x (List.mem_cons_self x xs) hx
      rw [List.find?_cons_of_pos _ hx, hxa]
    | false =>
      have hax : a ∈ xs := by
        rcases List.mem_cons.mp hmem with h | h
        · subst h; rw [hpa] at hx; cases hx
        · exact h
      rw [List.find?_cons_of_neg _ (by rw [hx]; simp)]
      exact ih hax hpa (fun y hy hpy => huniq y (List.mem_cons_of_mem x hy) hpy)

/-- C10: a `--regions` argument that still contains an empty token after the
outer strip of spaces and commas (such as `AS,,EU`, when its named regions
are valid and the empty string is not itself an available region) makes the
program exit fatally reporting the empty string as an unsupported region,
while an argument consisting only of commas and spaces (such as `,`) strips
to the empty string and applies no region filter at all. -/
theorem regions_arg_empty_token :
    (∀ (mirrors : List Mirror) (arg : String),
        pyStrip stripSpaceComma arg ≠ "" →
        "" ∈ pySplit ',' (pyStrip stripSpaceComma arg) →
        (∀ r ∈ pySplit ',' (pyStrip stripSpaceComma arg),
            r ≠ "" → r ∈ list_regions mirrors) →
        "" ∉ list_regions mirrors →
        regionFilter mirrors arg = FilterResult.fatal (regionErrorMsg "")) ∧
    (∀ (mirrors : List Mirror) (arg : String),
        pyStrip stripSpaceComma arg = "" →
        regionFilter mirrors arg = FilterResult.ok mirrors) := by
  constructor
  · intro mirrors arg hne hmem hvalid hnot
    have hfind : (pySplit ',' (pyStrip stripSpaceComma arg)).find?
        (fun r => !((list_regions mirrors).contains r)) = some "" := by
      apply find?_eq_of_mem_of_unique _ _ _ hmem
      · rw [contains_false_of_not_mem hnot]; rfl
      · intro x hx hpx
        by_contra hne2
        rw [contains_true_of_mem (hvalid x hx hne2)] at hpx
        cases hpx
    simp only [regionFilter]
    rw [if_neg hne, hfind]
  · intro mirrors arg hstr
    simp only [regionFilter]
    rw [if_pos hstr]

/-- C8: the region list that `list_regions` computes (printed in display
mode and returned for the filter validation otherwise) is the sorted —
lexicographically ascending — deduplicated set of `region` values of the
given mirrors, and display mode prints a `no regions` message exactly when
that set is empty. -/
theorem list_regions_spec (mirrors : List Mirror) :
    List.Sorted strLe (list_regions mirrors) ∧
    (list_regions mirrors).Nodup ∧
    (∀ s, s ∈ list_regions mirrors ↔ ∃ m ∈ mirrors, m.region = s) ∧
    (list_regions mirrors = [] →
      list_regions_display mirrors = ["No regions available."]) ∧
    (list_regions mirrors ≠ [] →
      list_regions_display mirrors =
        "Available Regions:" :: (list_regions mirrors).map (fun r => " - " ++ r)) := by
  refine ⟨List.sorted_insertionSort strLe _, ?_, ?_, ?_, ?_⟩
  · exact ((List.perm_insertionSort strLe _).nodup_iff).mpr (List.nodup_dedup _)
  · intro s
    simp only [list_regions, List.mem_insertionSort, List.mem_dedup, List.mem_map]
  · intro h
    simp only [list_regions_display]
    simp [h]
  · intro h
    simp only [list_regions_display]
    rw [if_neg (by simp [h])]


theorem regionFilter_invalid_fatal_witness :
    pyStrip stripSpaceComma ("ZZ") ≠ "" ∧
    (∃ r ∈ pySplit ',' (pyStrip stripSpaceComma ("ZZ")),
      r ∉ list_regions sampleMirrors ∧
      regionFilter sampleMirrors ("ZZ") = FilterResult.fatal (regionErrorMsg r)) :=
  ⟨by decide, regionFilter_invalid_fatal sampleMirrors ("ZZ") (by decide)
      ⟨"ZZ", by decide, by decide⟩⟩

theorem applyFilters_intersection_witness :
    applyFilters [wmA, wmB, wmC, wDisabled] ("EU,NA") (some 1) =
      FilterResult.ok (([wmA, wmB, wmC, wDisabled].filter (fun m => m.enabled)).filter
        (fun m => m.tier == 1
          && (pySplit ',' (pyStrip stripSpaceComma ("EU,NA"))).contains m.region)) :=
  applyFilters_intersection [wmA, wmB, wmC, wDisabled] ("EU,NA") 1
    (by decide) (by decide) (by decide)

theorem regions_arg_empty_token_witness :
    regionFilter sampleMirrors ("AS,,EU") = FilterResult.fatal (regionErrorMsg "") ∧
    regionFilter sampleMirrors (",") = FilterResult.ok sampleMirrors :=
  ⟨regions_arg_empty_token.1 sampleMirrors ("AS,,EU") (by decide) (by decide)
      (by decide) (by decide),
   regions_arg_empty_token.2 sampleMirrors (",") (by decide)⟩

theorem list_regions_spec_witness :
    List.Sorted strLe (list_regions sampleMirrors) ∧
    ("EU" ∈ list_regions sampleMirrors ↔ ∃ m ∈ sampleMirrors, m.region = "EU") ∧
    list_regions_display sampleMirrors =
      "Available Regions:" :: (list_regions sampleMirrors).map (fun r => " - " ++ r) ∧
    list_regions_display [] = ["No regions available."] := by
  have h := list_regions_spec sampleMirrors
  have h0 := list_regions_spec []
  exact ⟨h.1, h.2.2.1 ("EU"), h.2.2.2.2 (by decide), h0.2.2.2.1 (by decide)⟩
